import Mathlib

/-!
Verification of the Aegis task-manager backend (Express/Mongoose REST API).

The definitions below are a shallow embedding of the backend source:
  * `Task`/`User` records mirror the Mongoose schemas (models/Task.js, models/User.js);
  * the task-store operations mirror controllers/taskController.js;
  * the credential operations mirror controllers/authController.js;
  * `protect` mirrors middleware/auth.js;
  * the validation rule sets mirror middleware/validation.js;
  * response shaping mirrors utils/response.js and the schema toJSON transforms.
Machine-level details (MongoDB, bcrypt, jsonwebtoken) are modelled by their
documented contracts: object ids are `Nat`, timestamps are `Nat`, a bcrypt hash
is an injective tagging of the plaintext, and a signed JWT is a record carrying
the payload id, expiry instant and the signing secret.
-/

namespace Ageis

/-- Task status enum from config/constants.js (`TASK_STATUS`). -/
inductive TaskStatus where
  | todo
  | inProgress
  | completed
deriving DecidableEq, Repr

/-- A task document, from the Mongoose task schema (models/Task.js):
title, description (default empty), status (default todo), owning `userId`,
plus the `timestamps: true` fields. -/
structure Task where
  id : Nat
  title : String
  description : String
  status : TaskStatus
  userId : Nat
  createdAt : Nat
  updatedAt : Nat
deriving DecidableEq, Repr

/-- A user document, from the Mongoose user schema (models/User.js):
username, email (both stored lowercased), password (stored as a bcrypt hash),
plus timestamps. -/
structure UserRec where
  id : Nat
  username : String
  email : String
  password : String
  createdAt : Nat
  updatedAt : Nat
deriving DecidableEq, Repr

/-- The user as attached to `req.user` by the auth middleware: loaded with
`.select(-password)`, so the password field is absent by construction. -/
structure SafeUser where
  id : Nat
  username : String
  email : String
  createdAt : Nat
  updatedAt : Nat
deriving DecidableEq, Repr

/-- Drop the password field, as Mongoose does for the select(-password) projection. -/
def stripPassword (u : UserRec) : SafeUser :=
  ⟨u.id, u.username, u.email, u.createdAt, u.updatedAt⟩

/-- The public projection `userSchema.methods.toPublicJSON` (models/User.js):
id, username, email, createdAt, updatedAt — no password. -/
structure PublicUser where
  id : Nat
  username : String
  email : String
  createdAt : Nat
  updatedAt : Nat
deriving DecidableEq, Repr

/-- Method `toPublicJSON` from models/User.js. -/
def toPublicJSON (u : UserRec) : PublicUser :=
  ⟨u.id, u.username, u.email, u.createdAt, u.updatedAt⟩

/-- An HTTP error reply as produced by `sendError` (utils/response.js):
status code and message, with `success: false`. -/
structure ErrResp where
  status : Nat
  message : String
deriving DecidableEq, Repr

/-- Error messages from config/constants.js (`ERROR_MESSAGES`). -/
def TASK_NOT_FOUND : String := "Task not found"

def USER_NOT_FOUND : String := "User not found"

def UNAUTHORIZED_MSG : String := "Unauthorized access"

def INVALID_CREDENTIALS : String := "Invalid credentials"

/-- The 404 reply sent by every task handler when the owner-scoped lookup
comes back empty. -/
def taskNotFound : ErrResp := ⟨404, TASK_NOT_FOUND⟩

/-! Section: Task store (controllers/taskController.js) -/

/-- The owner-scoped lookup used by getTaskById and updateTask:
`Task.findOne({ _id: req.params.id, userId: req.user.id })`. -/
def findOneTask (store : List Task) (tid uid : Nat) : Option Task :=
  store.find? (fun t => t.id == tid && t.userId == uid)

/-- Handler `getTaskById` (GET /api/tasks/:id): owner-scoped findOne, 404 when the
query is empty, otherwise the bare task document. -/
def getTaskById (uid tid : Nat) (store : List Task) : Except ErrResp Task :=
  match findOneTask store tid uid with
  | none => .error taskNotFound
  | some t => .ok t

/-- A partial update body for PUT /api/tasks/:id: each field is optional. -/
structure TaskPatch where
  title : Option String
  description : Option String
  status : Option TaskStatus
deriving DecidableEq, Repr

/-- The field mutations of updateTask: `if (title !== undefined) task.title = title`
etc., followed by the `timestamps: true` bump of updatedAt on save. -/
def applyPatch (p : TaskPatch) (now : Nat) (t : Task) : Task :=
  let t1 := match p.title with | none => t | some s => { t with title := s }
  let t2 := match p.description with | none => t1 | some s => { t1 with description := s }
  let t3 := match p.status with | none => t2 | some s => { t2 with status := s }
  { t3 with updatedAt := now }

/-- Replace the saved document in the collection (a Mongoose `save` writes the
document with this `_id` back). -/
def saveTask (store : List Task) (t : Task) : List Task :=
  store.map (fun x => if x.id == t.id then t else x)

/-- Handler `updateTask` (PUT /api/tasks/:id): owner-scoped findOne, 404 when empty,
otherwise mutate the supplied fields and save. Returns the replied task and
the resulting collection. -/
def updateTask (uid tid : Nat) (p : TaskPatch) (now : Nat) (store : List Task) :
    Except ErrResp (Task × List Task) :=
  match findOneTask store tid uid with
  | none => .error taskNotFound
  | some t =>
      let t' := applyPatch p now t
      .ok (t', saveTask store t')

/-- Remove the first element satisfying the predicate (what
`findOneAndDelete` deletes). -/
def eraseFirst (p : Task → Bool) : List Task → List Task
  | [] => []
  | t :: ts => if p t then ts else t :: eraseFirst p ts

/-- Handler `deleteTask` (DELETE /api/tasks/:id):
`Task.findOneAndDelete({ _id: req.params.id, userId: req.user.id })`, 404 when
the query is empty, otherwise the document is removed. -/
def deleteTask (uid tid : Nat) (store : List Task) : Except ErrResp (List Task) :=
  match findOneTask store tid uid with
  | none => .error taskNotFound
  | some _ => .ok (eraseFirst (fun t => t.id == tid && t.userId == uid) store)

/-! Section: List queries and pagination (models/Task.js statics, utils/response.js) -/

/-- Optional list filters from GET /api/tasks query parameters. -/
structure TaskFilters where
  status : Option TaskStatus
  search : Option String
deriving DecidableEq, Repr

/-- Model of the Mongo `$text: {$search: q}` match over the text index on
title + description: the query occurs in one of the two fields. -/
def textMatch (q : String) (t : Task) : Bool :=
  (t.title.splitOn q).length > 1 || t.title == q
    || (t.description.splitOn q).length > 1 || t.description == q

/-- The filter document built by `findByUser`/`countByUser`
(models/Task.js): always `{ userId }`, plus status and text search when
present. -/
def taskQueryMatches (uid : Nat) (f : TaskFilters) (t : Task) : Bool :=
  t.userId == uid
    && (match f.status with | none => true | some s => t.status == s)
    && (match f.search with | none => true | some q => textMatch q t)

/-- The default `-createdAt` sort of `findByUser`: newest first. -/
def sortNewestFirst (l : List Task) : List Task :=
  l.mergeSort (fun a b => b.createdAt ≤ a.createdAt)

/-- Static `taskSchema.statics.findByUser` (models/Task.js): filter by owner plus
optional status/search, sort newest first, and when page and limit are both
given apply `skip((page-1)*limit).limit(limit)`. -/
def findByUser (store : List Task) (uid : Nat) (f : TaskFilters)
    (paging : Option (Nat × Nat)) : List Task :=
  let sorted := sortNewestFirst (store.filter (taskQueryMatches uid f))
  match paging with
  | none => sorted
  | some (page, limit) => (sorted.drop ((page - 1) * limit)).take limit

/-- Static `taskSchema.statics.countByUser`: `countDocuments` over the same filter
document. -/
def countByUser (store : List Task) (uid : Nat) (f : TaskFilters) : Nat :=
  (store.filter (taskQueryMatches uid f)).length

/-- The pagination metadata block built by `sendPaginatedResponse`
(utils/response.js). -/
structure Pagination where
  currentPage : Nat
  totalPages : Nat
  totalItems : Nat
  itemsPerPage : Nat
  hasNextPage : Bool
  hasPrevPage : Bool
deriving DecidableEq, Repr

/-- Helper `sendPaginatedResponse`: totalPages = Math.ceil(total/limit),
hasNextPage = page < totalPages, hasPrevPage = page > 1. -/
def mkPagination (page limit total : Nat) : Pagination :=
  let totalPages := (total + limit - 1) / limit
  ⟨page, totalPages, total, limit, decide (page < totalPages), decide (1 < page)⟩

/-- The paginated branch of `getTasks` (controllers/taskController.js): the
page slice from `findByUser` together with metadata computed from the
separate `countByUser` over the same filters. -/
def getTasksPaginated (store : List Task) (uid : Nat) (f : TaskFilters)
    (page limit : Nat) : List Task × Pagination :=
  (findByUser store uid f (some (page, limit)),
   mkPagination page limit (countByUser store uid f))

/-! Section: Token service (utils/jwt.js) and authorization gate (middleware/auth.js) -/

/-- A signed JWT, by its documented contract: an opaque, tamper-evident
record of the payload id, the expiry instant (`iat + expiresIn`), and the
secret it was signed with (a forged or corrupted token is one whose
signature does not verify under the server secret). -/
structure SignedToken where
  payloadId : Nat
  exp : Nat
  sig : Nat
deriving DecidableEq, Repr

/-- Function `generateToken` (utils/jwt.js): `jwt.sign({id}, secret, {expiresIn})`. -/
def generateToken (id secret now lifetime : Nat) : SignedToken :=
  ⟨id, now + lifetime, secret⟩

/-- The two `jwt.verify` failure modes the middleware distinguishes. -/
inductive JwtError where
  | expired
  | malformed
deriving DecidableEq, Repr

/-- Library `jwt.verify(token, secret)` at clock instant `now`: signature check, then
expiry (a token is rejected from its `exp` instant onward). -/
def jwtVerify (t : SignedToken) (secret now : Nat) : Except JwtError Nat :=
  if t.sig ≠ secret then .error .malformed
  else if t.exp ≤ now then .error .expired
  else .ok t.payloadId

/-- The Authorization header as the middleware discriminates it: missing, or
present but not of the `Bearer <token>` shape, or carrying a token. -/
inductive AuthHeader where
  | absent
  | notBearer (raw : String)
  | bearer (tok : SignedToken)
deriving DecidableEq, Repr

/-- Query `User.findById(id)`. -/
def findById (users : List UserRec) (uid : Nat) : Option UserRec :=
  users.find? (fun u => u.id == uid)

/-- The `protect` middleware (middleware/auth.js): require a Bearer header,
verify the token, resolve the embedded id to a live user with the password
excluded; any failure is a 401 reply, success attaches the resolved user. -/
def protect (h : AuthHeader) (users : List UserRec) (secret now : Nat) :
    Except ErrResp SafeUser :=
  match h with
  | .absent => .error ⟨401, UNAUTHORIZED_MSG⟩
  | .notBearer _ => .error ⟨401, UNAUTHORIZED_MSG⟩
  | .bearer tok =>
      match jwtVerify tok secret now with
      | .error .expired => .error ⟨401, "Token has expired"⟩
      | .error .malformed => .error ⟨401, "Invalid token"⟩
      | .ok uid =>
          match findById users uid with
          | none => .error ⟨401, USER_NOT_FOUND⟩
          | some u => .ok (stripPassword u)

/-! Section: Credential store (controllers/authController.js, models/User.js) -/

/-- Bcrypt by its documented contract: `hash` tags the plaintext (salted,
irreversible in the real library; here an injective tagging so that `compare`
succeeds exactly on the original plaintext). -/
def bcryptHash (pw : String) : String := "$2b$10$" ++ pw

/-- Library `bcrypt.compare(entered, storedHash)`. -/
def bcryptCompare (entered storedHash : String) : Bool :=
  bcryptHash entered == storedHash

/-- The JS `toLowerCase()` (and the Mongoose `lowercase: true` setter),
modelled characterwise. -/
def strLower (s : String) : String := String.mk (s.data.map Char.toLower)

/-- The `normalizeEmail()` sanitizer of express-validator: lowercases the
address before the controller sees it. -/
def normalizeEmail (s : String) : String := strLower s

/-- Expression `field.charAt(0).toUpperCase() + field.slice(1)` from
handleDuplicateKeyError (middleware/errorHandler.js). -/
def capitalize (s : String) : String :=
  match s.data with
  | [] => s
  | c :: cs => String.mk (c.toUpper :: cs)

/-- The 409 message produced by `handleDuplicateKeyError` for a Mongo
duplicate-key (code 11000) error on `field` with offending `value`. -/
def dupKeyMessage (field value : String) : String :=
  capitalize field ++ " \x27" ++ value ++ "\x27 already exists"

/-- The unique storage indexes on email and username
(models/User.js): inserting a document that collides with an existing one
raises a duplicate-key error carrying the offending field and value;
otherwise the document is appended. -/
def mongoInsertUser (users : List UserRec) (email username pwHash : String)
    (freshId now : Nat) : Except (String × String) (UserRec × List UserRec) :=
  if users.any (fun u => u.email == email) then .error ("email", email)
  else if users.any (fun u => u.username == username) then .error ("username", username)
  else
    let u : UserRec := ⟨freshId, username, email, pwHash, now, now⟩
    .ok (u, users ++ [u])

/-- Saving an existing user document under the same unique indexes: a
collision with a different document raises the duplicate-key error,
otherwise the document is written back. -/
def mongoSaveUser (users : List UserRec) (u : UserRec) :
    Except (String × String) (List UserRec) :=
  if users.any (fun v => v.id != u.id && v.username == u.username) then
    .error ("username", u.username)
  else if users.any (fun v => v.id != u.id && v.email == u.email) then
    .error ("email", u.email)
  else .ok (users.map (fun v => if v.id == u.id then u else v))

/-- Handler `signup` (controllers/authController.js): pre-check
`findOne({$or: [{email}, {username: username.toLowerCase()}]})` → 409;
otherwise create (schema lowercases both fields, pre-save hook hashes the
password; a storage duplicate-key error is translated to 409 by the error
handler) and reply 201 with a token and the public projection. -/
def signupCtrl (users : List UserRec) (email username password : String)
    (freshId now secret lifetime : Nat) :
    List UserRec × Except ErrResp (SignedToken × PublicUser) :=
  match users.find? (fun u => u.email == email || u.username == strLower username) with
  | some ex =>
      (users, .error ⟨409, if ex.email == email then "Email already registered"
                           else "Username already taken"⟩)
  | none =>
      match mongoInsertUser users (strLower email) (strLower username)
          (bcryptHash password) freshId now with
      | .error (f, v) => (users, .error ⟨409, dupKeyMessage f v⟩)
      | .ok (u, users') =>
          (users', .ok (generateToken u.id secret now lifetime, toPublicJSON u))

/-- The POST /api/signup pipeline after validation: the `normalizeEmail`
sanitizer has already lowercased the email field. -/
def signupEndpoint (users : List UserRec) (email username password : String)
    (freshId now secret lifetime : Nat) :
    List UserRec × Except ErrResp (SignedToken × PublicUser) :=
  signupCtrl users (normalizeEmail email) username password freshId now secret lifetime

/-- The login lookup:
`User.findOne({$or: [{email: id.toLowerCase()}, {username: id.toLowerCase()}]})`. -/
def loginLookup (users : List UserRec) (emailOrUsername : String) : Option UserRec :=
  users.find? (fun u =>
    u.email == strLower emailOrUsername || u.username == strLower emailOrUsername)

/-- Handler `login` (controllers/authController.js): look up by lowercased email or
username, 401 `Invalid credentials` when no match, 401 with the same message
when the bcrypt comparison fails, otherwise a token plus the public
projection. -/
def loginCtrl (users : List UserRec) (emailOrUsername password : String)
    (secret now lifetime : Nat) : Except ErrResp (SignedToken × PublicUser) :=
  match loginLookup users emailOrUsername with
  | none => .error ⟨401, INVALID_CREDENTIALS⟩
  | some u =>
      if bcryptCompare password u.password then
        .ok (generateToken u.id secret now lifetime, toPublicJSON u)
      else .error ⟨401, INVALID_CREDENTIALS⟩

/-- A PUT /api/profile body: each of username/email/password optional. -/
structure ProfilePatch where
  username : Option String
  email : Option String
  password : Option String
deriving DecidableEq, Repr

/-- The uniqueness pre-check of `updateProfile`: a single `findOne` whose
query document holds the new username AND the new email when both are
supplied (Mongo conjunction), excluding the current user. -/
def profilePrecheck (users : List UserRec) (uid : Nat) (p : ProfilePatch) :
    Option UserRec :=
  users.find? (fun v => v.id != uid
    && (match p.username with | none => true | some un => v.username == strLower un)
    && (match p.email with | none => true | some em => v.email == strLower em))

/-- The field mutations of `updateProfile`: lowercase username/email when
given, re-hash the password through the pre-save hook when given, bump
updatedAt on save. -/
def applyProfilePatch (p : ProfilePatch) (now : Nat) (u : UserRec) : UserRec :=
  let u1 := match p.username with | none => u | some un => { u with username := strLower un }
  let u2 := match p.email with | none => u1 | some em => { u1 with email := strLower em }
  let u3 := match p.password with | none => u2 | some pw => { u2 with password := bcryptHash pw }
  { u3 with updatedAt := now }

/-- Handler `updateProfile` (controllers/authController.js): resolve the user (404),
run the conjunctive pre-check when username or email is supplied (409 with
the friendly message), then apply the patch and save — a storage
duplicate-key error at save is translated to 409 by the error handler. -/
def updateProfileCtrl (users : List UserRec) (uid : Nat) (p : ProfilePatch)
    (now : Nat) : List UserRec × Except ErrResp PublicUser :=
  match findById users uid with
  | none => (users, .error ⟨404, USER_NOT_FOUND⟩)
  | some user =>
      let conflictMsg := fun (existing : UserRec) =>
        match p.username with
        | some un => if existing.username == strLower un then "Username already taken"
                     else "Email already registered"
        | none => "Email already registered"
      let save := fun (_ : Unit) =>
        let u' := applyProfilePatch p now user
        match mongoSaveUser users u' with
        | .error (f, v) => (users, .error ⟨409, dupKeyMessage f v⟩)
        | .ok users' => (users', .ok (toPublicJSON u'))
      if p.username.isSome || p.email.isSome then
        match profilePrecheck users uid p with
        | some existing => (users, .error ⟨409, conflictMsg existing⟩)
        | none => save ()
      else save ()

/-! Section: Validation gate (middleware/validation.js) -/

/-- True when the character list has an occurrence of `sep` that is not the
last character. -/
def tailHasSepNonempty (sep : Char) : List Char → Bool
  | [] => false
  | c :: rest => (c == sep && !rest.isEmpty) || tailHasSepNonempty sep rest

/-- The list decomposes as `u ++ [sep] ++ v` with `u` and `v` nonempty. -/
def hasMidSep (sep : Char) : List Char → Bool
  | [] => false
  | _ :: rest => tailHasSepNonempty sep rest

/-- Scan for an at-sign whose suffix decomposes as `u ++ "." ++ v` with `u`,
`v` nonempty. -/
def atThenDot : List Char → Bool
  | [] => false
  | c :: rest => (c == '@' && hasMidSep '.' rest) || atThenDot rest

/-- The email shape `/^\S+@\S+\.\S+$/` from the user schema (models/User.js),
standing in for the express-validator `isEmail()` check: no whitespace, a
nonempty part before some at-sign, and after it a dot with nonempty parts on
both sides. -/
def isEmailStr (s : String) : Bool :=
  s.data.all (fun c => !c.isWhitespace) &&
    (match s.data with
     | [] => false
     | _ :: rest => atThenDot rest)

/-- The username character class `/^[a-zA-Z0-9_-]+$/`. -/
def isUsernameChar (c : Char) : Bool :=
  (('a' ≤ c && c ≤ 'z') || ('A' ≤ c && c ≤ 'Z') || ('0' ≤ c && c ≤ '9')
    || c == '_' || c == '-')

/-- The special-character class `[!@#$%^&*(),.?":{}|<>]` of the password
rule. -/
def specialChars : List Char := "!@#$%^&*(),.?\":\x7b\x7d|<>".data

/-- The uppercase-letter password rule `/[A-Z]/` of the signup chain. -/
def pwUpperCheck (pw : String) : Bool :=
  pw.data.any (fun c => 'A' ≤ c && c ≤ 'Z')

/-- A POST /api/signup request body. -/
structure SignupBody where
  email : String
  username : String
  password : String
  confirmPassword : String
deriving DecidableEq, Repr

/-- One express-validator rule: a check over the body and the message
attached by `withMessage`. -/
structure VRule where
  msg : String
  check : SignupBody → Bool

/-- The `signupValidation` chain (middleware/validation.js), one entry per
validator, in source order. express-validator runs every validator; there is
no bail. -/
def signupValidation : List VRule := [
  ⟨"Please provide a valid email address", fun b => isEmailStr b.email⟩,
  ⟨"Username must be between 3 and 30 characters",
    fun b => 3 ≤ b.username.length && b.username.length ≤ 30⟩,
  ⟨"Username can only contain letters, numbers, underscores, and hyphens",
    fun b => b.username.data.all isUsernameChar && !b.username.isEmpty⟩,
  ⟨"Password must be at least 8 characters long", fun b => 8 ≤ b.password.length⟩,
  ⟨"Password must contain at least one uppercase letter",
    fun b => pwUpperCheck b.password⟩,
  ⟨"Password must contain at least one lowercase letter",
    fun b => b.password.data.any (fun c => 'a' ≤ c && c ≤ 'z')⟩,
  ⟨"Password must contain at least one number",
    fun b => b.password.data.any (fun c => '0' ≤ c && c ≤ '9')⟩,
  ⟨"Password must contain at least one special character (!@#$%^&*(),.?\":\x7b\x7d|<>)",
    fun b => b.password.data.any (fun c => specialChars.contains c)⟩,
  ⟨"Passwords do not match", fun b => b.confirmPassword == b.password⟩]

/-- Expression `validationResult(req).array().map(e => e.msg)`: the messages of every
violated rule, in chain order. -/
def runValidation (rules : List VRule) (b : SignupBody) : List String :=
  (rules.filter (fun r => !(r.check b))).map (fun r => r.msg)

/-- The 422 reply of the `validate` middleware: status, the joined message,
and the full error array. -/
structure ValidationReject where
  status : Nat
  message : String
  errors : List String
deriving DecidableEq, Repr

/-- The `validate` middleware on the signup chain: `none` means the request
proceeds; otherwise the 422 reply listing every violated rule. -/
def validateSignup (b : SignupBody) : Option ValidationReject :=
  let errs := runValidation signupValidation b
  if errs.isEmpty then none
  else some ⟨422, String.intercalate ", " errs, errs⟩

/-! Section: Middleware pipelines (routes/authRoutes.js, routes/taskRoutes.js) -/

/-- The three kinds of stages a route composes. -/
inductive Stage where
  | validation
  | auth
  | handler
deriving DecidableEq, Repr

/-- POST /api/signup: `signupValidation, validate, signup`. -/
def signupPipeline : List Stage := [.validation, .handler]

/-- POST /api/login: `loginValidation, validate, login`. -/
def loginPipeline : List Stage := [.validation, .handler]

/-- GET /api/profile: `protect, getProfile`. -/
def getProfilePipeline : List Stage := [.auth, .handler]

/-- PUT /api/profile: `protect, updateProfileValidation, validate,
updateProfile`. -/
def updateProfilePipeline : List Stage := [.auth, .validation, .handler]

/-- Every task route: `router.use(protect)` first, then the per-route
validator chain and `validate`, then the handler (routes/taskRoutes.js). -/
def taskPipeline : List Stage := [.auth, .validation, .handler]

/-- The full route table of the API (health and the index page excepted,
which run no gate at all). -/
def routeTable : List (String × List Stage) := [
  ("POST /api/signup", signupPipeline),
  ("POST /api/login", loginPipeline),
  ("GET /api/profile", getProfilePipeline),
  ("PUT /api/profile", updateProfilePipeline),
  ("GET /api/tasks", taskPipeline),
  ("POST /api/tasks", taskPipeline),
  ("GET /api/tasks/:id", taskPipeline),
  ("PUT /api/tasks/:id", taskPipeline),
  ("DELETE /api/tasks/:id", taskPipeline)]

/-- Position of the first occurrence of a stage in a pipeline. -/
def stageIdx (s : Stage) (p : List Stage) : Nat := p.findIdx (· == s)

/-- Stage `a` runs strictly before stage `b` in pipeline `p`. -/
def stageBefore (a b : Stage) (p : List Stage) : Prop :=
  stageIdx a p < stageIdx b p

instance (a b : Stage) (p : List Stage) : Decidable (stageBefore a b p) := by
  unfold stageBefore; infer_instance

/-- The request facts the gates test. -/
structure PipeReq where
  authed : Bool
  valid : Bool
deriving DecidableEq, Repr

/-- Running a pipeline over a task store: an auth stage replies 401 on an
unauthenticated request, a validation stage replies 422 on an invalid
payload, and the handler applies its store mutation and replies 200. -/
def runStages (mutate : List Task → List Task) :
    List Stage → PipeReq → List Task → Nat × List Task
  | [], _, s => (200, s)
  | .auth :: rest, req, s =>
      if req.authed then runStages mutate rest req s else (401, s)
  | .validation :: rest, req, s =>
      if req.valid then runStages mutate rest req s else (422, s)
  | .handler :: _, _, s => (200, mutate s)

/-! Section: JSON serialization (schema toJSON transforms, utils/response.js) -/

mutual
/-- A JSON value. -/
inductive Json where
  | str : String → Json
  | num : Nat → Json
  | boolean : Bool → Json
  | null : Json
  | arr : JsonList → Json
  | obj : JsonObj → Json

/-- The field list of a JSON object. -/
inductive JsonObj where
  | nil : JsonObj
  | cons : String → Json → JsonObj → JsonObj

/-- The element list of a JSON array. -/
inductive JsonList where
  | nil : JsonList
  | cons : Json → JsonList → JsonList
end

/-- Build an object from a field list. -/
def JsonObj.ofList : List (String × Json) → JsonObj
  | [] => .nil
  | (k, v) :: rest => .cons k v (ofList rest)

/-- Build an array from an element list. -/
def JsonList.ofList : List Json → JsonList
  | [] => .nil
  | j :: rest => .cons j (ofList rest)

mutual
/-- A key occurs somewhere in the value, at any depth. -/
def Json.hasKey : Json → String → Bool
  | .obj o, k => JsonObj.hasKeyO o k
  | .arr l, k => JsonList.hasKeyL l k
  | _, _ => false

/-- A key occurs in the object or below it. -/
def JsonObj.hasKeyO : JsonObj → String → Bool
  | .nil, _ => false
  | .cons s j rest, k => s == k || Json.hasKey j k || JsonObj.hasKeyO rest k

/-- A key occurs below one of the elements. -/
def JsonList.hasKeyL : JsonList → String → Bool
  | .nil, _ => false
  | .cons j rest, k => Json.hasKey j k || JsonList.hasKeyL rest k
end

/-- The JS `delete ret[k]` on a plain object. -/
def JsonObj.deleteKey : JsonObj → String → JsonObj
  | .nil, _ => .nil
  | .cons s j rest, k =>
      if s == k then rest.deleteKey k else .cons s j (rest.deleteKey k)

/-- The JS `ret[k] = v` on a plain object (fresh key: appended). -/
def JsonObj.setKey : JsonObj → String → Json → JsonObj
  | .nil, k, v => .cons k v .nil
  | .cons s j rest, k, v => .cons s j (rest.setKey k v)

/-- The status enum values as serialized (config/constants.js). -/
def statusString : TaskStatus → String
  | .todo => "todo"
  | .inProgress => "in-progress"
  | .completed => "completed"

/-- A user document as Mongo materializes it with the password selected:
every schema path plus `_id` and `__v`. -/
def rawUserJson (u : UserRec) : JsonObj := .ofList [
  ("_id", .num u.id),
  ("username", .str u.username),
  ("email", .str u.email),
  ("password", .str u.password),
  ("createdAt", .num u.createdAt),
  ("updatedAt", .num u.updatedAt),
  ("__v", .num 0)]

/-- The `toJSON` transform of the user schema (models/User.js):
`ret.id = ret._id; delete ret._id; delete ret.__v; delete ret.password`. -/
def userToJSON (u : UserRec) : Json :=
  .obj ((((rawUserJson u).setKey "id" (.num u.id)).deleteKey
    "_id").deleteKey "__v" |>.deleteKey "password")

/-- A task document as Mongo materializes it. -/
def rawTaskJson (t : Task) : JsonObj := .ofList [
  ("_id", .num t.id),
  ("title", .str t.title),
  ("description", .str t.description),
  ("status", .str (statusString t.status)),
  ("userId", .num t.userId),
  ("createdAt", .num t.createdAt),
  ("updatedAt", .num t.updatedAt),
  ("__v", .num 0)]

/-- The `toJSON` transform of the task schema (models/Task.js):
`ret.id = ret._id; delete ret._id; delete ret.__v`. -/
def taskToJSON (t : Task) : Json :=
  .obj ((((rawTaskJson t).setKey "id" (.num t.id)).deleteKey
    "_id").deleteKey "__v")

/-- The serialized form of a signed token: an opaque string built from the
payload and signature, carrying no user fields. -/
def tokenString (t : SignedToken) : String :=
  String.intercalate "." ["jwt", toString t.payloadId, toString t.exp, toString t.sig]

/-- Projection `toPublicJSON` as serialized in replies. -/
def publicUserJson (u : PublicUser) : Json := .obj (.ofList [
  ("id", .num u.id),
  ("username", .str u.username),
  ("email", .str u.email),
  ("createdAt", .num u.createdAt),
  ("updatedAt", .num u.updatedAt)])

/-- The 201 reply of POST /api/signup and the 200 reply of POST /api/login:
`sendSuccess(res, ..., { token, user: user.toPublicJSON() })`. -/
def authSuccessResponse (u : UserRec) (tok : SignedToken) : Json := .obj (.ofList [
  ("success", .boolean true),
  ("token", .str (tokenString tok)),
  ("user", publicUserJson (toPublicJSON u))])

/-- The 200 reply of GET /api/profile and PUT /api/profile:
`sendSuccess(res, ..., user.toPublicJSON())`, whose fields are spread into
the envelope. -/
def profileResponse (u : UserRec) : Json := .obj (.ofList [
  ("success", .boolean true),
  ("id", .num u.id),
  ("username", .str u.username),
  ("email", .str u.email),
  ("createdAt", .num u.createdAt),
  ("updatedAt", .num u.updatedAt)])

/-- The bare-array reply of GET /api/tasks without paging, and the bare task
replies of the other task endpoints, serialize through `taskToJSON`. -/
def taskListResponse (ts : List Task) : Json :=
  .arr (JsonList.ofList (ts.map taskToJSON))

/-- The paginated reply of GET /api/tasks (utils/response.js). -/
def paginatedResponse (ts : List Task) (pg : Pagination) : Json := .obj (.ofList [
  ("success", .boolean true),
  ("data", .arr (JsonList.ofList (ts.map taskToJSON))),
  ("pagination", .obj (.ofList [
    ("currentPage", .num pg.currentPage),
    ("totalPages", .num pg.totalPages),
    ("totalItems", .num pg.totalItems),
    ("itemsPerPage", .num pg.itemsPerPage),
    ("hasNextPage", .boolean pg.hasNextPage),
    ("hasPrevPage", .boolean pg.hasPrevPage)]))])

/-- The 200 reply of DELETE /api/tasks/:id. -/
def deleteTaskResponse : Json := .obj (.ofList [
  ("success", .boolean true),
  ("message", .str "Task deleted successfully")])

/-! Theorems for the claims, with their helper lemmas. -/

/-- The owner-scoped lookup is empty whenever no element passes both the id
and the owner filter. -/
theorem findOneTask_eq_none {store : List Task} {tid uid : Nat}
    (h : ∀ t ∈ store, t.id = tid → t.userId ≠ uid) :
    findOneTask store tid uid = none := by
  unfold findOneTask
  rw [List.find?_eq_none]
  intro x hx
  simp only [Bool.and_eq_true, beq_iff_eq, not_and]
  exact h x hx

/-- C1: For every task t created with owner A and every user B distinct from
A, getOne(B, t.id), update(B, t.id, patch) and delete(B, t.id) fail with
NotFound — the same outcome as for a non-existent id — because every such
query filters by both the task id and the owning-user id. -/
theorem task_ownership_isolation
    (store : List Task) (t : Task) (B : Nat) (patch : TaskPatch) (now : Nat)
    (hmem : t ∈ store)
    (huniq : ∀ t' ∈ store, t'.id = t.id → t'.userId = t.userId)
    (hB : B ≠ t.userId) :
    getTaskById B t.id store = .error taskNotFound ∧
    updateTask B t.id patch now store = .error taskNotFound ∧
    deleteTask B t.id store = .error taskNotFound ∧
    ∀ freshId : Nat, (∀ t' ∈ store, t'.id ≠ freshId) →
      getTaskById B freshId store = .error taskNotFound ∧
      updateTask B freshId patch now store = .error taskNotFound ∧
      deleteTask B freshId store = .error taskNotFound := by
  have hnone : findOneTask store t.id B = none := by
    refine findOneTask_eq_none (fun x hx hid huid => ?_)
    exact hB ((huniq x hx hid).symm.trans huid).symm
  refine ⟨?_, ?_, ?_, ?_⟩
  · simp [getTaskById, hnone]
  · simp [updateTask, hnone]
  · simp [deleteTask, hnone]
  · intro freshId hfresh
    have hnone' : findOneTask store freshId B = none :=
      findOneTask_eq_none (fun x hx hid _ => hfresh x hx hid)
    exact ⟨by simp [getTaskById, hnone'], by simp [updateTask, hnone'],
      by simp [deleteTask, hnone']⟩

/-- Closed instance of the ownership isolation theorem: user 99 cannot see,
update or delete task 1 owned by user 10, and a never-issued id gives the
same reply. -/
theorem task_ownership_isolation_witness :
    getTaskById 99 1 [⟨1, "a", "", .todo, 10, 0, 0⟩] = .error taskNotFound ∧
    updateTask 99 1 ⟨some "x", none, none⟩ 5 [⟨1, "a", "", .todo, 10, 0, 0⟩] =
      .error taskNotFound ∧
    getTaskById 99 77 [⟨1, "a", "", .todo, 10, 0, 0⟩] = .error taskNotFound := by
  have h := task_ownership_isolation [⟨1, "a", "", .todo, 10, 0, 0⟩]
    ⟨1, "a", "", .todo, 10, 0, 0⟩ 99 ⟨some "x", none, none⟩ 5
    (by decide) (by decide) (by decide)
  exact ⟨h.1, h.2.1, (h.2.2.2 77 (by decide)).1⟩

/-- When ids are unique in the store, the owner-scoped lookup of an owned
task returns exactly that task. -/
theorem findOneTask_owner {store : List Task} {t : Task} {uid : Nat}
    (hmem : t ∈ store) (hnodup : (store.map Task.id).Nodup)
    (huid : t.userId = uid) :
    findOneTask store t.id uid = some t := by
  induction store with
  | nil => cases hmem
  | cons h rest ih =>
      rcases List.mem_cons.mp hmem with rfl | hmem'
      · simp [findOneTask, List.find?, huid]
      · have hne : h.id ≠ t.id := by
          intro he
          have : t.id ∈ rest.map Task.id := List.mem_map_of_mem _ hmem'
          exact (List.nodup_cons.mp hnodup).1 (he ▸ this)
        have ihh := ih hmem' (List.nodup_cons.mp hnodup).2
        simpa [findOneTask, List.find?, beq_eq_false_iff_ne.mpr hne] using ihh

theorem applyPatch_userId (p : TaskPatch) (now : Nat) (t : Task) :
    (applyPatch p now t).userId = t.userId := by
  unfold applyPatch
  cases p.title <;> cases p.description <;> cases p.status <;> rfl

theorem applyPatch_id (p : TaskPatch) (now : Nat) (t : Task) :
    (applyPatch p now t).id = t.id := by
  unfold applyPatch
  cases p.title <;> cases p.description <;> cases p.status <;> rfl

theorem applyPatch_createdAt (p : TaskPatch) (now : Nat) (t : Task) :
    (applyPatch p now t).createdAt = t.createdAt := by
  unfold applyPatch
  cases p.title <;> cases p.description <;> cases p.status <;> rfl

/-- C8: update(ownerId, taskId, patch) changes exactly the fields present in
the patch among title/description/status; the owning-user id and the
creation timestamp keep their values, and every other task in the store is
untouched. -/
theorem update_changes_only_patch_fields
    (store : List Task) (t : Task) (uid : Nat) (p : TaskPatch) (now : Nat)
    (hmem : t ∈ store) (hnodup : (store.map Task.id).Nodup)
    (huid : t.userId = uid) :
    ∃ t' store', updateTask uid t.id p now store = .ok (t', store') ∧
      t'.userId = t.userId ∧
      t'.createdAt = t.createdAt ∧
      (p.title = none → t'.title = t.title) ∧
      (∀ s, p.title = some s → t'.title = s) ∧
      (p.description = none → t'.description = t.description) ∧
      (∀ s, p.description = some s → t'.description = s) ∧
      (p.status = none → t'.status = t.status) ∧
      (∀ s, p.status = some s → t'.status = s) ∧
      (∀ u ∈ store, u.id ≠ t.id → u ∈ store') := by
  have hfind := findOneTask_owner hmem hnodup huid
  refine ⟨applyPatch p now t, saveTask store (applyPatch p now t), ?_,
    applyPatch_userId p now t, applyPatch_createdAt p now t,
    ?_, ?_, ?_, ?_, ?_, ?_, ?_⟩
  · simp [updateTask, hfind]
  · intro h
    cases hd : p.description <;> cases hs : p.status <;> simp [applyPatch, h, hd, hs]
  · intro s h
    cases hd : p.description <;> cases hs : p.status <;> simp [applyPatch, h, hd, hs]
  · intro h
    cases ht : p.title <;> cases hs : p.status <;> simp [applyPatch, h, ht, hs]
  · intro s h
    cases ht : p.title <;> cases hs : p.status <;> simp [applyPatch, h, ht, hs]
  · intro h
    cases ht : p.title <;> cases hd : p.description <;> simp [applyPatch, h, ht, hd]
  · intro s h
    cases ht : p.title <;> cases hd : p.description <;> simp [applyPatch, h, ht, hd]
  · intro u hu hne
    have hif : (if u.id == (applyPatch p now t).id then applyPatch p now t else u) = u := by
      rw [applyPatch_id]
      simp [beq_eq_false_iff_ne.mpr hne]
    have hmm : (if u.id == (applyPatch p now t).id then applyPatch p now t else u) ∈
        saveTask store (applyPatch p now t) := List.mem_map_of_mem _ hu
    rw [hif] at hmm
    exact hmm

/-- Closed instance of the update frame theorem: patching only the status of
task 1 keeps its title, owner and creation time. -/
theorem update_changes_only_patch_fields_witness :
    ∃ t' store',
      updateTask 10 1 ⟨none, none, some .completed⟩ 9
        [⟨1, "a", "d", .todo, 10, 3, 3⟩] = .ok (t', store') ∧
      t'.title = "a" ∧ t'.userId = 10 ∧ t'.createdAt = 3 ∧ t'.status = .completed := by
  obtain ⟨t', store', heq, huid, hcreated, htitle, -, -, -, -, hstatus, -⟩ :=
    update_changes_only_patch_fields [⟨1, "a", "d", .todo, 10, 3, 3⟩]
      ⟨1, "a", "d", .todo, 10, 3, 3⟩ 10 ⟨none, none, some .completed⟩ 9
      (by decide) (by decide) (by decide)
  exact ⟨t', store', heq, htitle rfl, huid, hcreated, hstatus .completed rfl⟩

/-- C3: the authorization gate rejects with 401 exactly when the Bearer
header is absent, the token fails verification, or the embedded id resolves
to no live user; otherwise it attaches the resolved identity without the
password. A token issued with a 1-second lifetime and used 2 seconds later
is rejected as expired. -/
theorem protect_rejects_exactly
    (h : AuthHeader) (users : List UserRec) (secret now : Nat) :
    ((∃ su, protect h users secret now = .ok su) ↔
      ∃ tok uid urec, h = .bearer tok ∧ jwtVerify tok secret now = .ok uid ∧
        findById users uid = some urec) ∧
    (∀ tok uid urec, h = .bearer tok → jwtVerify tok secret now = .ok uid →
      findById users uid = some urec →
      protect h users secret now = .ok (stripPassword urec)) ∧
    (∀ e, protect h users secret now = .error e → e.status = 401) ∧
    (∀ id t0, protect (.bearer (generateToken id secret t0 1)) users secret
      (t0 + 2) = .error ⟨401, "Token has expired"⟩) := by
  refine ⟨⟨?_, ?_⟩, ?_, ?_, ?_⟩
  · rintro ⟨su, hsu⟩
    cases h with
    | absent => simp [protect] at hsu
    | notBearer r => simp [protect] at hsu
    | bearer tok =>
        rcases hv : jwtVerify tok secret now with e | uid
        · cases e <;> simp [protect, hv] at hsu
        · rcases hf : findById users uid with - | urec
          · simp [protect, hv, hf] at hsu
          · exact ⟨tok, uid, urec, rfl, hv, hf⟩
  · rintro ⟨tok, uid, urec, rfl, hv, hf⟩
    exact ⟨stripPassword urec, by simp [protect, hv, hf]⟩
  · rintro tok uid urec rfl hv hf
    simp [protect, hv, hf]
  · intro e he
    cases h with
    | absent => simp [protect] at he; rw [← he]
    | notBearer r => simp [protect] at he; rw [← he]
    | bearer tok =>
        rcases hv : jwtVerify tok secret now with ev | uid
        · cases ev <;> simp [protect, hv] at he <;> rw [← he]
        · rcases hf : findById users uid with - | urec
          · simp [protect, hv, hf] at he; rw [← he]
          · simp [protect, hv, hf] at he
  · intro id t0
    have hv : jwtVerify (generateToken id secret t0 1) secret (t0 + 2) =
        .error .expired := by
      simp [jwtVerify, generateToken]
    simp [protect, hv]

/-- Closed instance of the gate theorem: a token signed with the right
secret but a 1-second lifetime, presented 2 seconds after issuance, is
rejected with 401. -/
theorem protect_rejects_exactly_witness :
    protect (.bearer (generateToken 7 5 100 1)) [] 5 102 =
      .error ⟨401, "Token has expired"⟩ :=
  (protect_rejects_exactly (.bearer (generateToken 7 5 100 1)) [] 5 102).2.2.2 7 100

/-- No task serialization carries a password key below it. -/
theorem taskToJSON_no_password (t : Task) :
    (taskToJSON t).hasKey "password" = false := rfl

/-- Task arrays serialize elementwise through `taskToJSON`, so no password
key appears below them either. -/
theorem taskList_no_password (ts : List Task) :
    (JsonList.ofList (ts.map taskToJSON)).hasKeyL "password" = false := by
  induction ts with
  | nil => rfl
  | cons t ts ih =>
      simp only [List.map_cons, JsonList.ofList, JsonList.hasKeyL,
        taskToJSON_no_password t, ih, Bool.or_self]

/-- C2: no success response of any endpoint carries the stored password or
its hash: the schema toJSON transform deletes the password field, the public
projection omits it, every task serialization lacks it, and the
authorization gate attaches only the password-stripped projection of a
stored user. -/
theorem password_write_only :
    (∀ u : UserRec, (userToJSON u).hasKey "password" = false) ∧
    (∀ u tok, (authSuccessResponse u tok).hasKey "password" = false) ∧
    (∀ u : UserRec, (profileResponse u).hasKey "password" = false) ∧
    (∀ ts : List Task, (taskListResponse ts).hasKey "password" = false) ∧
    (∀ ts pg, (paginatedResponse ts pg).hasKey "password" = false) ∧
    (deleteTaskResponse.hasKey "password" = false) ∧
    (∀ h users secret now su, protect h users secret now = .ok su →
      ∃ urec ∈ users, su = stripPassword urec) := by
  refine ⟨fun u => rfl, fun u tok => rfl, fun u => rfl, ?_, ?_, rfl, ?_⟩
  · intro ts
    simp only [taskListResponse, Json.hasKey, taskList_no_password]
  · intro ts pg
    simp only [paginatedResponse, Json.hasKey, JsonObj.ofList, JsonObj.hasKeyO,
      JsonList.hasKeyL, taskList_no_password, Bool.or_self, Bool.or_false]
    rfl
  · intro h users secret now su hsu
    cases h with
    | absent => simp [protect] at hsu
    | notBearer r => simp [protect] at hsu
    | bearer tok =>
        rcases hv : jwtVerify tok secret now with e | uid
        · cases e <;> simp [protect, hv] at hsu
        · rcases hf : findById users uid with - | urec
          · simp [protect, hv, hf] at hsu
          · have hmem : urec ∈ users := List.mem_of_find?_eq_some hf
            have : su = stripPassword urec := by
              simp [protect, hv, hf] at hsu
              exact hsu.symm
            exact ⟨urec, hmem, this⟩

/-- Closed instance: the gate resolves a stored user and attaches exactly
its password-stripped projection. -/
theorem password_write_only_witness :
    ∃ urec ∈ [(⟨1, "u", "e", "p", 0, 0⟩ : UserRec)],
      stripPassword ⟨1, "u", "e", "p", 0, 0⟩ = stripPassword urec :=
  password_write_only.2.2.2.2.2.2 (.bearer (generateToken 1 5 0 10))
    [⟨1, "u", "e", "p", 0, 0⟩] 5 1 (stripPassword ⟨1, "u", "e", "p", 0, 0⟩) rfl

/-- C4 counterexample: on POST /api/tasks (and every protected route) the
authorization gate is mounted by `router.use(protect)` before the per-route
validator chain, so validation does NOT run before authorization. -/
theorem validation_before_auth_counterexample :
    ("POST /api/tasks", taskPipeline) ∈ routeTable ∧
    Stage.validation ∈ taskPipeline ∧
    Stage.auth ∈ taskPipeline ∧
    ¬ stageBefore .validation .auth taskPipeline ∧
    stageBefore .auth .validation taskPipeline := by
  refine ⟨?_, ?_, ?_, ?_, ?_⟩ <;> decide

/-- C4 amended: on every endpoint the validation gate runs strictly before
the handler (and on protected endpoints the authorization gate runs before
validation, not after); hence a request failing validation — or failing
authentication — causes no store mutation at all. -/
theorem pipeline_order_amended :
    ∀ ep ∈ routeTable,
      (Stage.validation ∈ ep.2 → stageBefore .validation .handler ep.2) ∧
      (Stage.auth ∈ ep.2 → Stage.validation ∈ ep.2 →
        stageBefore .auth .validation ep.2) ∧
      (∀ mutate req store, req.valid = false → Stage.validation ∈ ep.2 →
        (runStages mutate ep.2 req store).2 = store) := by
  intro ep hep
  have hcases : ep.2 = signupPipeline ∨ ep.2 = getProfilePipeline ∨
      ep.2 = taskPipeline := by
    simp only [routeTable, signupPipeline, loginPipeline, getProfilePipeline,
      updateProfilePipeline, taskPipeline, List.mem_cons, List.not_mem_nil,
      or_false] at hep
    rcases hep with h | h | h | h | h | h | h | h | h <;> rw [h] <;>
      simp [signupPipeline, loginPipeline, getProfilePipeline,
        updateProfilePipeline, taskPipeline]
  have hrunVH : ∀ mutate req store, req.valid = false →
      (runStages mutate [Stage.validation, Stage.handler] req store).2 = store := by
    intro mutate req store hv
    simp [runStages, hv]
  have hrunAVH : ∀ mutate req store, req.valid = false →
      (runStages mutate [Stage.auth, Stage.validation, Stage.handler]
        req store).2 = store := by
    intro mutate req store hv
    rcases req with ⟨a, v⟩
    cases a <;> simp_all [runStages]
  rcases hcases with h | h | h <;> rw [h]
  · exact ⟨fun _ => by decide, fun ha _ => absurd ha (by decide),
      fun mutate req store hv _ => hrunVH mutate req store hv⟩
  · exact ⟨fun hv => absurd hv (by decide), fun _ hv => absurd hv (by decide),
      fun mutate req store _ hv => absurd hv (by decide)⟩
  · exact ⟨fun _ => by decide, fun _ _ => by decide,
      fun mutate req store hv _ => hrunAVH mutate req store hv⟩

/-- Closed instance of the amended pipeline theorem: an invalid create-task
request leaves the store untouched. -/
theorem pipeline_order_amended_witness :
    (runStages (fun _ => []) taskPipeline ⟨true, false⟩
      [⟨1, "a", "", .todo, 10, 0, 0⟩]).2 = [⟨1, "a", "", .todo, 10, 0, 0⟩] :=
  (pipeline_order_amended ("POST /api/tasks", taskPipeline) (by decide)).2.2
    (fun _ => []) ⟨true, false⟩ [⟨1, "a", "", .todo, 10, 0, 0⟩] rfl (by decide)

/-- C5: a second registration whose email or username duplicates an existing
account case-insensitively is rejected with 409 Conflict by the signup
pre-check, and the user store is left exactly as it was. -/
theorem signup_duplicate_conflict
    (users : List UserRec) (u : UserRec) (email username password : String)
    (freshId now secret lifetime : Nat)
    (hmem : u ∈ users)
    (hdup : u.email = strLower email ∨ u.username = strLower username) :
    (signupEndpoint users email username password freshId now secret lifetime).1
      = users ∧
    ∃ msg, (signupEndpoint users email username password freshId now secret
      lifetime).2 = .error ⟨409, msg⟩ := by
  unfold signupEndpoint signupCtrl normalizeEmail
  rcases hfind : users.find? (fun v =>
      v.email == strLower email || v.username == strLower username) with - | ex
  · exfalso
    have := List.find?_eq_none.mp hfind u hmem
    simp only [Bool.or_eq_true, beq_iff_eq, not_or] at this
    rcases hdup with h | h
    · exact this.1 h
    · exact this.2 h
  · exact ⟨by rw [hfind], _, by rw [hfind]⟩

/-- Closed instance: re-registering the email of an existing account with a
different letter case is rejected with 409 and the store is unchanged. -/
theorem signup_duplicate_conflict_witness :
    (signupEndpoint [⟨1, "bob", "a@b.com", "h", 0, 0⟩] "A@B.com" "carol"
      "Secret1!" 2 9 5 7).1 = [⟨1, "bob", "a@b.com", "h", 0, 0⟩] ∧
    ∃ msg, (signupEndpoint [⟨1, "bob", "a@b.com", "h", 0, 0⟩] "A@B.com" "carol"
      "Secret1!" 2 9 5 7).2 = .error ⟨409, msg⟩ :=
  signup_duplicate_conflict [⟨1, "bob", "a@b.com", "h", 0, 0⟩]
    ⟨1, "bob", "a@b.com", "h", 0, 0⟩ "A@B.com" "carol" "Secret1!" 2 9 5 7
    (by decide) (Or.inl (by decide))

/-- C6: both login failure modes — unknown identifier, and known identifier
with a failing hash comparison — produce the identical 401 reply with the
generic message, revealing nothing about which credential was wrong; a
successful login returns the public projection and a token. -/
theorem login_failures_indistinguishable
    (users : List UserRec) (ident pw : String) (secret now lifetime : Nat) :
    (loginLookup users ident = none →
      loginCtrl users ident pw secret now lifetime =
        .error ⟨401, INVALID_CREDENTIALS⟩) ∧
    (∀ u, loginLookup users ident = some u → bcryptCompare pw u.password = false →
      loginCtrl users ident pw secret now lifetime =
        .error ⟨401, INVALID_CREDENTIALS⟩) ∧
    (∀ u, loginLookup users ident = some u → bcryptCompare pw u.password = true →
      loginCtrl users ident pw secret now lifetime =
        .ok (generateToken u.id secret now lifetime, toPublicJSON u)) := by
  refine ⟨fun h => by simp [loginCtrl, h], fun u hu hc => ?_, fun u hu hc => ?_⟩
  · simp [loginCtrl, hu, hc]
  · simp [loginCtrl, hu, hc]

/-- Closed instance: a wrong identifier and a wrong password yield literally
the same 401 reply. -/
theorem login_failures_indistinguishable_witness :
    loginCtrl [⟨1, "bob", "a@b.com", "$2b$10$pw", 0, 0⟩] "nobody" "pw" 5 9 7 =
      .error ⟨401, INVALID_CREDENTIALS⟩ ∧
    loginCtrl [⟨1, "bob", "a@b.com", "$2b$10$pw", 0, 0⟩] "bob" "wrong" 5 9 7 =
      .error ⟨401, INVALID_CREDENTIALS⟩ :=
  ⟨(login_failures_indistinguishable [⟨1, "bob", "a@b.com", "$2b$10$pw", 0, 0⟩]
      "nobody" "pw" 5 9 7).1 rfl,
   (login_failures_indistinguishable [⟨1, "bob", "a@b.com", "$2b$10$pw", 0, 0⟩]
      "bob" "wrong" 5 9 7).2.1 ⟨1, "bob", "a@b.com", "$2b$10$pw", 0, 0⟩ rfl rfl⟩

/-- Sorting is a permutation, so it preserves the count. -/
theorem length_sortNewestFirst (l : List Task) :
    (sortNewestFirst l).length = l.length :=
  (List.mergeSort_perm l _).length_eq

/-- C7: the paginated task list carries metadata computed from a separate
count over the same filter: currentPage = page, totalItems = the count,
itemsPerPage = limit, totalPages = ceil(count/limit) (characterized by the
two bounds below), hasNextPage iff page < totalPages, hasPrevPage iff
page > 1, and the page slice holds min(limit, count - (page-1)*limit)
items. -/
theorem pagination_metadata_correct
    (store : List Task) (uid : Nat) (f : TaskFilters) (page limit : Nat)
    (hp : 1 ≤ page) (hl : 1 ≤ limit) :
    (getTasksPaginated store uid f page limit).2.currentPage = page ∧
    (getTasksPaginated store uid f page limit).2.totalItems =
      countByUser store uid f ∧
    (getTasksPaginated store uid f page limit).2.itemsPerPage = limit ∧
    countByUser store uid f ≤
      (getTasksPaginated store uid f page limit).2.totalPages * limit ∧
    (getTasksPaginated store uid f page limit).2.totalPages * limit <
      countByUser store uid f + limit ∧
    ((getTasksPaginated store uid f page limit).2.hasNextPage = true ↔
      page < (getTasksPaginated store uid f page limit).2.totalPages) ∧
    ((getTasksPaginated store uid f page limit).2.hasPrevPage = true ↔
      1 < page) ∧
    (getTasksPaginated store uid f page limit).1.length =
      min limit (countByUser store uid f - (page - 1) * limit) := by
  have hceil : ∀ tot lim : Nat, 1 ≤ lim →
      tot ≤ ((tot + lim - 1) / lim) * lim ∧
      ((tot + lim - 1) / lim) * lim < tot + lim := by
    intro tot lim hlim
    have hdm := Nat.div_add_mod (tot + lim - 1) lim
    have hr : (tot + lim - 1) % lim < lim := Nat.mod_lt _ (by omega)
    have hcomm : lim * ((tot + lim - 1) / lim) = ((tot + lim - 1) / lim) * lim :=
      Nat.mul_comm _ _
    omega
  refine ⟨rfl, rfl, rfl, (hceil _ limit hl).1, (hceil _ limit hl).2,
    by simp [getTasksPaginated, mkPagination],
    by simp [getTasksPaginated, mkPagination], ?_⟩
  simp only [getTasksPaginated, findByUser]
  rw [List.length_take, List.length_drop, length_sortNewestFirst]
  rfl

/-- Closed instance: a user owning 25 tasks asking for page 2 with limit 10
gets exactly 10 items, currentPage 2, totalPages 3, and both page flags
set. -/
theorem pagination_metadata_correct_witness :
    (getTasksPaginated
      ((List.range 25).map (fun i => ⟨i, "t", "", .todo, 1, i, i⟩))
      1 ⟨none, none⟩ 2 10).1.length = 10 ∧
    (getTasksPaginated
      ((List.range 25).map (fun i => ⟨i, "t", "", .todo, 1, i, i⟩))
      1 ⟨none, none⟩ 2 10).2 = ⟨2, 3, 25, 10, true, true⟩ := by
  have h := pagination_metadata_correct
    ((List.range 25).map (fun i => ⟨i, "t", "", .todo, 1, i, i⟩))
    1 ⟨none, none⟩ 2 10 (by decide) (by decide)
  have htot : countByUser
      ((List.range 25).map (fun i => ⟨i, "t", "", .todo, 1, i, i⟩))
      1 ⟨none, none⟩ = 25 := by decide
  refine ⟨?_, by decide⟩
  rw [h.2.2.2.2.2.2.2, htot]
  decide

set_option maxRecDepth 4000 in
/-- C9: the validation gate replies 422 listing every violated rule, not
just the first; in particular signup with password `"password"` is rejected
listing the missing-uppercase, missing-number and missing-special-character
rules together. -/
theorem validation_lists_every_violation (b : SignupBody) :
    (∀ r ∈ signupValidation, r.check b = false →
      r.msg ∈ runValidation signupValidation b) ∧
    (runValidation signupValidation b = [] → validateSignup b = none) ∧
    (runValidation signupValidation b ≠ [] →
      validateSignup b = some ⟨422,
        String.intercalate ", " (runValidation signupValidation b),
        runValidation signupValidation b⟩) ∧
    (validateSignup ⟨"a@b.com", "gooduser", "password", "password"⟩ =
      some ⟨422,
        "Password must contain at least one uppercase letter, " ++
        "Password must contain at least one number, " ++
        "Password must contain at least one special character " ++
        "(!@#$%^&*(),.?\":\x7b\x7d|<>)",
        ["Password must contain at least one uppercase letter",
         "Password must contain at least one number",
         "Password must contain at least one special character " ++
         "(!@#$%^&*(),.?\":\x7b\x7d|<>)"]⟩) := by
  refine ⟨?_, ?_, ?_, by decide⟩
  · intro r hr hviol
    unfold runValidation
    exact List.mem_map_of_mem _ (List.mem_filter.mpr ⟨hr, by simp [hviol]⟩)
  · intro h
    simp [validateSignup, h]
  · intro h
    unfold validateSignup
    rw [if_neg (by simpa using h)]

/-- Closed instance: the uppercase rule is violated by `"password"` and its
message is indeed among the listed errors. -/
theorem validation_lists_every_violation_witness :
    VRule.msg ⟨"Password must contain at least one uppercase letter",
        fun b => pwUpperCheck b.password⟩ ∈
      runValidation signupValidation
        ⟨"a@b.com", "gooduser", "password", "password"⟩ := by
  have hm : (⟨"Password must contain at least one uppercase letter",
      fun b => pwUpperCheck b.password⟩ : VRule) ∈ signupValidation := by
    unfold signupValidation
    exact List.mem_cons_of_mem _ (List.mem_cons_of_mem _ (List.mem_cons_of_mem _
      (List.mem_cons_of_mem _ (List.mem_cons_self _ _))))
  exact (validation_lists_every_violation
    ⟨"a@b.com", "gooduser", "password", "password"⟩).1 _ hm rfl

theorem applyProfilePatch_id (p : ProfilePatch) (now : Nat) (u : UserRec) :
    (applyProfilePatch p now u).id = u.id := by
  unfold applyProfilePatch
  cases p.username <;> cases p.email <;> cases p.password <;> rfl

theorem applyProfilePatch_username (un : String) {p : ProfilePatch}
    (now : Nat) (u : UserRec) (h : p.username = some un) :
    (applyProfilePatch p now u).username = strLower un := by
  cases he : p.email <;> cases hp : p.password <;>
    simp [applyProfilePatch, h, he, hp]

theorem applyProfilePatch_email (em : String) {p : ProfilePatch}
    (now : Nat) (u : UserRec) (h : p.email = some em) :
    (applyProfilePatch p now u).email = strLower em := by
  cases hu : p.username <;> cases hp : p.password <;>
    simp [applyProfilePatch, h, hu, hp]

/-- C10: when a profile update supplies both a new username and a new email,
the pre-check queries for a single user matching both values conjunctively;
when the two values are held by other users but no single other user holds
both, the pre-check finds nothing, and the 409 conflict is only surfaced by
the storage-level duplicate-key error at save time. -/
theorem profile_precheck_is_conjunctive
    (users : List UserRec) (uid : Nat) (un em : String) (pw : Option String)
    (now : Nat)
    (hcur : (findById users uid).isSome)
    (hnone : ∀ v ∈ users,
      ¬(v.id ≠ uid ∧ v.username = strLower un ∧ v.email = strLower em))
    (hdup : ∃ v ∈ users,
      v.id ≠ uid ∧ (v.username = strLower un ∨ v.email = strLower em)) :
    profilePrecheck users uid ⟨some un, some em, pw⟩ = none ∧
    (updateProfileCtrl users uid ⟨some un, some em, pw⟩ now).1 = users ∧
    ∃ f v, (updateProfileCtrl users uid ⟨some un, some em, pw⟩ now).2 =
      .error ⟨409, dupKeyMessage f v⟩ := by
  have hpre : profilePrecheck users uid ⟨some un, some em, pw⟩ = none := by
    unfold profilePrecheck
    rw [List.find?_eq_none]
    intro v hv
    simp only [bne_iff_ne, ne_eq, Bool.and_eq_true, beq_iff_eq,
      decide_eq_true_eq, not_and]
    intro h1 h2
    exact hnone v hv ⟨h1.1, h1.2, h2⟩
  rcases hfind : findById users uid with - | u0
  · rw [hfind] at hcur
    simp at hcur
  · have hid : u0.id = uid := by
      have := List.find?_some hfind
      simpa using this
    unfold updateProfileCtrl
    rw [hfind, hpre]
    simp only [Option.isSome_some, Bool.or_self, if_true]
    have huid : (applyProfilePatch ⟨some un, some em, pw⟩ now u0).id = uid := by
      rw [applyProfilePatch_id]
      exact hid
    have hun : (applyProfilePatch ⟨some un, some em, pw⟩ now u0).username =
        strLower un := applyProfilePatch_username un now u0 rfl
    have hem : (applyProfilePatch ⟨some un, some em, pw⟩ now u0).email =
        strLower em := applyProfilePatch_email em now u0 rfl
    by_cases hA : users.any (fun v =>
        v.id != (applyProfilePatch ⟨some un, some em, pw⟩ now u0).id &&
        v.username == (applyProfilePatch ⟨some un, some em, pw⟩ now u0).username) = true
    · unfold mongoSaveUser
      rw [if_pos hA]
      exact ⟨trivial, rfl, _, _, rfl⟩
    · have hB : users.any (fun v =>
          v.id != (applyProfilePatch ⟨some un, some em, pw⟩ now u0).id &&
          v.email == (applyProfilePatch ⟨some un, some em, pw⟩ now u0).email) = true := by
        obtain ⟨v, hv, hvid, hvdup⟩ := hdup
        rcases hvdup with hvu | hve
        · exfalso
          apply hA
          rw [List.any_eq_true]
          exact ⟨v, hv, by simp [huid, hun, hvid, hvu]⟩
        · rw [List.any_eq_true]
          exact ⟨v, hv, by simp [huid, hem, hvid, hve]⟩
      unfold mongoSaveUser
      rw [if_neg hA, if_pos hB]
      exact ⟨trivial, rfl, _, _, rfl⟩

/-- Closed instance: user 2 holds the requested username, user 3 holds the
requested email; the conjunctive pre-check misses both and the conflict
surfaces as a storage duplicate-key 409. -/
theorem profile_precheck_is_conjunctive_witness :
    profilePrecheck
      [⟨1, "me", "me@x.com", "h", 0, 0⟩, ⟨2, "bob", "b@x.com", "h", 0, 0⟩,
       ⟨3, "carol", "c@x.com", "h", 0, 0⟩]
      1 ⟨some "Bob", some "C@X.com", none⟩ = none ∧
    (updateProfileCtrl
      [⟨1, "me", "me@x.com", "h", 0, 0⟩, ⟨2, "bob", "b@x.com", "h", 0, 0⟩,
       ⟨3, "carol", "c@x.com", "h", 0, 0⟩]
      1 ⟨some "Bob", some "C@X.com", none⟩ 9).1 =
      [⟨1, "me", "me@x.com", "h", 0, 0⟩, ⟨2, "bob", "b@x.com", "h", 0, 0⟩,
       ⟨3, "carol", "c@x.com", "h", 0, 0⟩] ∧
    ∃ f v, (updateProfileCtrl
      [⟨1, "me", "me@x.com", "h", 0, 0⟩, ⟨2, "bob", "b@x.com", "h", 0, 0⟩,
       ⟨3, "carol", "c@x.com", "h", 0, 0⟩]
      1 ⟨some "Bob", some "C@X.com", none⟩ 9).2 =
      .error ⟨409, dupKeyMessage f v⟩ :=
  profile_precheck_is_conjunctive
    [⟨1, "me", "me@x.com", "h", 0, 0⟩, ⟨2, "bob", "b@x.com", "h", 0, 0⟩,
     ⟨3, "carol", "c@x.com", "h", 0, 0⟩]
    1 "Bob" "C@X.com" none 9 (by decide) (by decide)
    ⟨⟨2, "bob", "b@x.com", "h", 0, 0⟩, by decide, by decide, Or.inl (by decide)⟩

end Ageis
